import Mathlib

/-!
Verification of the request/retry core (`src/http.ts`) and the client facade
(`src/trello.ts`) of a typed Trello API client.

The embedding models JavaScript values (`JSValue`), JS string coercion
(`String(v)`), `JSON.stringify`, the WHATWG `application/x-www-form-urlencoded`
serializer used by `URLSearchParams`, the request built by `makeRequest` before
calling `fetch` (`buildRequest`), and the retry loop of `makeRequest` as a
fuel-indexed interpreter over an abstract transport (the sequence of `fetch`
responses).  The facade entry point `Trello.makeRequest` is modelled by
`trelloMakeRequest`, including its object-spread query merge and its mutation
of the caller's options object.
-/

namespace TrelloSpec

/-- A JavaScript runtime value, as far as the client manipulates them:
`null`, `undefined`, booleans, (integer) numbers, strings, arrays, and
plain objects represented as insertion-ordered association lists. -/
inductive JSValue where
  | vNull : JSValue
  | vUndefined : JSValue
  | vBool : Bool → JSValue
  | vNum : Int → JSValue
  | vStr : String → JSValue
  | vArr : List JSValue → JSValue
  | vObj : List (String × JSValue) → JSValue

/-- JavaScript truthiness: `false`, `0`, `""`, `null` and `undefined` are
falsy; every object and array is truthy. -/
def truthy : JSValue → Bool
  | .vNull => false
  | .vUndefined => false
  | .vBool b => b
  | .vNum n => n != 0
  | .vStr s => s != ""
  | .vArr _ => true
  | .vObj _ => true

/-- The JavaScript `typeof` operator (note `typeof null = "object"`). -/
def jsTypeof : JSValue → String
  | .vNull => "object"
  | .vUndefined => "undefined"
  | .vBool _ => "boolean"
  | .vNum _ => "number"
  | .vStr _ => "string"
  | .vArr _ => "object"
  | .vObj _ => "object"

mutual

/-- JavaScript string coercion `String(v)`: arrays join their elements with
commas (as `Array.prototype.toString`), plain objects print the fixed
placeholder `"[object Object]"`, `null` and `undefined` print their names. -/
def jsToString : JSValue → String
  | .vNull => "null"
  | .vUndefined => "undefined"
  | .vBool b => if b then "true" else "false"
  | .vNum n => toString n
  | .vStr s => s
  | .vArr xs => jsArrJoin xs
  | .vObj _ => "[object Object]"

/-- Model of `Array.prototype.join(",")` over the already-coerced elements. -/
def jsArrJoin : List JSValue → String
  | [] => ""
  | [x] => jsArrElem x
  | x :: xs => jsArrElem x ++ "," ++ jsArrJoin xs

/-- Element coercion inside `Array.prototype.join`: `null` and `undefined`
become the empty string, everything else coerces as `String(v)`. -/
def jsArrElem : JSValue → String
  | .vNull => ""
  | .vUndefined => ""
  | .vBool b => if b then "true" else "false"
  | .vNum n => toString n
  | .vStr s => s
  | .vArr xs => jsArrJoin xs
  | .vObj _ => "[object Object]"

end

/-- Escape one character for a JSON string literal. -/
def jsonEscapeChar (c : Char) : String :=
  if c = '"' then "\\\""
  else if c = '\\' then "\\\\"
  else if c = '\n' then "\\n"
  else if c = '\r' then "\\r"
  else if c = '\t' then "\\t"
  else if c.toNat < 32 then
    "\\u00" ++ String.singleton (Nat.digitChar (c.toNat / 16)) ++
      String.singleton (Nat.digitChar (c.toNat % 16))
  else String.singleton c

/-- A JSON string literal with the usual escapes. -/
def jsonQuote (s : String) : String :=
  "\"" ++ String.join (s.data.map jsonEscapeChar) ++ "\""

mutual

/-- Model of `JSON.stringify(v)`: `none` models the JavaScript result `undefined`
(produced for a top-level `undefined`). -/
def jsonStr? : JSValue → Option String
  | .vNull => some "null"
  | .vUndefined => none
  | .vBool b => some (if b then "true" else "false")
  | .vNum n => some (toString n)
  | .vStr s => some (jsonQuote s)
  | .vArr xs => some ("[" ++ jsonArrBody xs ++ "]")
  | .vObj fs => some ("\x7b" ++ String.intercalate "," (jsonObjFields fs) ++ "\x7d")

/-- Array elements of `JSON.stringify`: `undefined` elements serialize as
`null`. -/
def jsonArrBody : List JSValue → String
  | [] => ""
  | [x] => (jsonStr? x).getD "null"
  | x :: xs => (jsonStr? x).getD "null" ++ "," ++ jsonArrBody xs

/-- Object fields of `JSON.stringify`: fields whose value serializes to
`undefined` are dropped. -/
def jsonObjFields : List (String × JSValue) → List String
  | [] => []
  | (k, v) :: fs =>
    match jsonStr? v with
    | none => jsonObjFields fs
    | some s => (jsonQuote k ++ ":" ++ s) :: jsonObjFields fs

end

/-- Total version of `JSON.stringify` for the positions where the source only
applies it to truthy (hence defined) values. -/
def jsonStringify (v : JSValue) : String :=
  (jsonStr? v).getD "undefined"

/-- Upper-case hexadecimal digit, as used by the WHATWG percent-encoder. -/
def hexDigit (n : Nat) : Char :=
  if n < 10 then Char.ofNat (48 + n) else Char.ofNat (55 + n)

/-- UTF-8 encoding of a Unicode code point, as a list of byte values. -/
def utf8Bytes (n : Nat) : List Nat :=
  if n < 0x80 then [n]
  else if n < 0x800 then [0xC0 + n / 0x40, 0x80 + n % 0x40]
  else if n < 0x10000 then
    [0xE0 + n / 0x1000, 0x80 + (n / 0x40) % 0x40, 0x80 + n % 0x40]
  else
    [0xF0 + n / 0x40000, 0x80 + (n / 0x1000) % 0x40, 0x80 + (n / 0x40) % 0x40,
      0x80 + n % 0x40]

/-- One byte of the `application/x-www-form-urlencoded` serializer used by
`URLSearchParams.toString`: space becomes `+`; ASCII alphanumerics and
`*`, `-`, `.`, `_` pass through; every other byte is percent-encoded. -/
def formEncodeByte (b : Nat) : String :=
  if b = 0x20 then "+"
  else if (0x30 ≤ b ∧ b ≤ 0x39) ∨ (0x41 ≤ b ∧ b ≤ 0x5A) ∨ (0x61 ≤ b ∧ b ≤ 0x7A) ∨
      b = 0x2A ∨ b = 0x2D ∨ b = 0x2E ∨ b = 0x5F then
    String.singleton (Char.ofNat b)
  else "%" ++ String.singleton (hexDigit (b / 16)) ++ String.singleton (hexDigit (b % 16))

/-- The `application/x-www-form-urlencoded` encoding of a string (UTF-8 then
byte-wise escaping). -/
def formEncode (s : String) : String :=
  String.join (s.data.map (fun c => String.join ((utf8Bytes c.toNat).map formEncodeByte)))

/-- Serialization of a `URLSearchParams` list: `k₁=v₁&k₂=v₂&…` with both keys
and values form-encoded, in append order. -/
def serializeParams (ps : List (String × String)) : String :=
  String.intercalate "&" (ps.map (fun kv => formEncode kv.1 ++ "=" ++ formEncode kv.2))

/-- The HTTP request handed to `fetch` by `makeRequest`: wire method, URL base
(`baseUri + uri`), appended search parameters, optional headers and optional
body. -/
structure WireRequest where
  method : String
  urlBase : String
  params : List (String × String)
  headers : Option (List (String × String))
  body : Option String
deriving Repr

/-- Model of `url.toString()`: the base followed by the serialized query (with `?`)
when any search parameters were appended. -/
def WireRequest.urlString (r : WireRequest) : String :=
  if r.params.isEmpty then r.urlBase else r.urlBase ++ "?" ++ serializeParams r.params

/-- A `fetch` response as read by `makeRequest`: its `status`, its `ok` flag,
the value `text()` resolves to and the value `json()` parses to. -/
structure Response where
  status : Nat
  ok : Bool
  textBody : String
  jsonBody : JSValue

/-- The Fetch standard's invariant on real `Response` objects: `ok` is defined
as `status` being in the inclusive range 200–299. Mock responses in the test
suite may violate it; responses produced by the actual transport satisfy it. -/
def fetchConsistent (r : Response) : Prop :=
  r.ok = true ↔ (200 ≤ r.status ∧ r.status ≤ 299)

/-- The options argument of `makeRequest` (`RequestOptions` /
`JsonRequestOptions` in `src/types.ts`): a `query` map, and the `headers` and
`data` fields that only the JSON branch reads. -/
structure RequestOptions where
  query : List (String × JSValue)
  headers : Option (List (String × String)) := none
  data : Option JSValue := none

/-- Rate limiting constant `MIN_REQUEST_DELAY` from `src/http.ts`. -/
def MIN_REQUEST_DELAY : Int := 500

/-- Rate limiting constant `MAX_REQUEST_DELAY` from `src/http.ts`. -/
def MAX_REQUEST_DELAY : Int := 7000

/-- The backoff delay computed on a 429 response:
`Math.floor(Math.random() * (MAX_REQUEST_DELAY - MIN_REQUEST_DELAY)) + MIN_REQUEST_DELAY`,
where `r` is the value returned by `Math.random()` (a number in `[0, 1)`). -/
def backoffDelay (r : ℚ) : Int :=
  ⌊r * ((MAX_REQUEST_DELAY : ℚ) - (MIN_REQUEST_DELAY : ℚ))⌋ + MIN_REQUEST_DELAY

/-- ASCII upper-casing of one character, as `String.prototype.toUpperCase`
acts on the ASCII method identifiers in play. -/
def jsUpperChar (c : Char) : Char :=
  if 'a' ≤ c ∧ c ≤ 'z' then Char.ofNat (c.toNat - 32) else c

/-- Model of `String.prototype.toUpperCase` (ASCII range). -/
def jsToUpperCase (s : String) : String :=
  ⟨s.data.map jsUpperChar⟩

/-- Model of `method.replace(/json$/, '')`: drop a final literal (lower-case) `json`.
The JavaScript regex is case-sensitive, so `"POST_JSON"` is left unchanged. -/
def stripJsonSuffix (m : String) : String :=
  match m.data.reverse with
  | 'n' :: 'o' :: 's' :: 'j' :: rest => ⟨rest.reverse⟩
  | _ => m

/-- The wire method computed by `makeRequest`:
`method.replace(/json$/, '').toUpperCase()`. -/
def wireMethod (m : String) : String :=
  jsToUpperCase (stripJsonSuffix m)

/-- Does the character list start with the literal `json`? -/
def startsWithJson : List Char → Bool
  | 'j' :: 's' :: 'o' :: 'n' :: _ => true
  | _ => false

/-- Does the character list contain the literal `json` anywhere? -/
def containsJson : List Char → Bool
  | [] => false
  | c :: rest => startsWithJson (c :: rest) || containsJson rest

/-- Model of `method.includes('json')`: case-sensitive substring test selecting the
JSON branch of `makeRequest`. -/
def isJsonMode (m : String) : Bool :=
  containsJson m.data

/-- The request `makeRequest` assembles before calling `fetch`: URL built from
`baseUri + uri`, the query map appended as stringified search parameters, and
— only in the JSON branch — the caller's headers and, when `data` is truthy,
a `JSON.stringify(data)` body. -/
def buildRequest (method uri : String) (options : RequestOptions)
    (baseUri : String := "https://api.trello.com") : WireRequest :=
  if isJsonMode method then
    { method := wireMethod method
      urlBase := baseUri ++ uri
      params := options.query.map (fun kv => (kv.1, jsToString kv.2))
      headers := options.headers
      body :=
        match options.data with
        | some d => if truthy d then some (jsonStringify d) else none
        | none => none }
  else
    { method := wireMethod method
      urlBase := baseUri ++ uri
      params := options.query.map (fun kv => (kv.1, jsToString kv.2))
      headers := none
      body := none }

/-- Outcome of one `makeRequest` run: the parsed JSON of a successful
response, an error carrying the body text and the offending response, or
`pending` when the given fuel was exhausted while the call was still
retrying (the source has no such bound: it retries forever). -/
inductive HttpResult where
  | success : JSValue → HttpResult
  | httpError : String → Response → HttpResult
  | pending : HttpResult

/-- The retry loop of `makeRequest`, as a fuel-indexed interpreter.
`transport i` is the response `fetch` yields for the `i`-th issued request;
the result is paired with the list of requests actually handed to `fetch`.
On a 429 the source suspends for a backoff delay and re-invokes itself with
the very same `method`, `uri`, `options` and `baseUri`, which is exactly the
recursive call below. -/
def makeRequest (method uri : String) (options : RequestOptions) (baseUri : String)
    (transport : Nat → Response) : Nat → Nat → HttpResult × List WireRequest
  | 0, _ => (.pending, [])
  | fuel + 1, idx =>
    let req := buildRequest method uri options baseUri
    let r := transport idx
    if r.status = 429 then
      let rest := makeRequest method uri options baseUri transport fuel (idx + 1)
      (rest.1, req :: rest.2)
    else if r.ok = false then
      (.httpError r.textBody r, [req])
    else
      (.success r.jsonBody, [req])

/-- Own enumerable entries of a value, as used by object spread `{...v}`:
objects contribute their fields, arrays their indexed elements, `null`
nothing. (The facade only reaches this after `typeof options === 'object'`.) -/
def entriesOf : JSValue → List (String × JSValue)
  | .vObj fs => fs
  | .vArr xs => (List.range xs.length).zip xs |>.map (fun iv => (toString iv.1, iv.2))
  | _ => []

/-- First value bound to key `k` in an association list (JS property lookup;
object literals never hold duplicate keys). -/
def lookupKey (l : List (String × JSValue)) (k : String) : Option JSValue :=
  (l.find? (fun kv => kv.1 == k)).map (fun kv => kv.2)

/-- JS property assignment `o[k] = v` on the entry list: overwrite in place if
the key exists, else append. Spreading a later object over an earlier one
does exactly this per key. -/
def setKey (l : List (String × JSValue)) (k : String) (v : JSValue) :
    List (String × JSValue) :=
  if l.any (fun kv => kv.1 == k) then
    l.map (fun kv => if kv.1 == k then (k, v) else kv)
  else l ++ [(k, v)]

/-- Object spread merge `{...a, ...b}`: start from `a`'s entries and assign
each entry of `b` in order. -/
def mergeSpread (a b : List (String × JSValue)) : List (String × JSValue) :=
  b.foldl (fun acc kv => setKey acc kv.1 kv.2) a

/-- Entry list after `delete o[k]`. -/
def deleteKey (l : List (String × JSValue)) (k : String) : List (String × JSValue) :=
  l.filter (fun kv => kv.1 != k)

/-- Effect of the facade's `delete options.data` statement on the caller's
options value. -/
def deleteDataProp : JSValue → JSValue
  | .vObj fs => .vObj (deleteKey fs "data")
  | v => v

/-- The string payload of a `typeof`-checked string value. -/
def strVal : JSValue → String
  | .vStr s => s
  | _ => ""

/-- The arguments the facade passes to the transport core `makeRequest`. -/
structure DelegatedCall where
  method : String
  path : String
  options : RequestOptions
  baseUri : String

/-- Result of running the facade entry point `Trello.makeRequest`: a raised
`TypeError` message (if any), the call delegated to the transport core (if
reached), and the state of the caller's `options` object afterwards. -/
structure FacadeResult where
  typeError : Option String
  call : Option DelegatedCall
  finalOptions : JSValue

/-- The base URI held by every `Trello` instance. -/
def trelloUri : String := "https://api.trello.com"

/-- The facade entry point `Trello.makeRequest` from `src/trello.ts`:
validate that `requestMethod` is a string and `options` an object, merge
the spread of `options` with the key/token pair into the query, and delegate to the
transport core — in a JSON branch (for the exact strings `"POST_JSON"` and
`"PUT_JSON"`) after copying `options.data` aside and deleting it from the
caller's object, otherwise with the merged query alone. No further check on
the method string is performed before delegation. -/
def trelloMakeRequest (key token : String) (requestMethod : JSValue) (path : String)
    (options : JSValue) : FacadeResult :=
  if jsTypeof requestMethod != "string" then
    ⟨some "requestMethod should be a string", none, options⟩
  else if jsTypeof options != "object" then
    ⟨some "options should be an object", none, options⟩
  else
    let method := strVal requestMethod
    let query := mergeSpread (entriesOf options)
      [("key", .vStr key), ("token", .vStr token)]
    if method = "POST_JSON" ∨ method = "PUT_JSON" then
      let jsonOptions : RequestOptions :=
        { query := query
          headers := some [("Content-Type", "application/json")]
          data := lookupKey (entriesOf options) "data" }
      ⟨none, some ⟨method, path, jsonOptions, trelloUri⟩, deleteDataProp options⟩
    else
      ⟨none, some ⟨method, path, { query := query }, trelloUri⟩, options⟩

/-- Claim C1: if the transport returns status 429 on the first call and a 2xx
response (hence `ok`, by the Fetch invariant) with JSON body `Y` on the
second, then `makeRequest` resolves to `Y`, the transport is invoked exactly
twice, and the second issued request is identical to the first (same wire
method, URL with query parameters, headers and body) — for every verb, path,
payload, base origin and fuel bound of at least two. -/
theorem makeRequest_retry_then_succeed
    (m uri base : String) (opts : RequestOptions) (transport : Nat → Response)
    (Y : JSValue) (fuel : Nat)
    (h0 : (transport 0).status = 429)
    (h1 : 200 ≤ (transport 1).status) (h2 : (transport 1).status ≤ 299)
    (hc : fetchConsistent (transport 1))
    (hY : (transport 1).jsonBody = Y) :
    makeRequest m uri opts base transport (fuel + 2) 0 =
      (.success Y, [buildRequest m uri opts base, buildRequest m uri opts base]) := by
  have hne : ¬ (transport 1).status = 429 := by omega
  have hok : (transport 1).ok = true := hc.mpr ⟨h1, h2⟩
  simp [makeRequest, h0, hne, hok, hY]

/-- Transport used to witness C1: a 429 followed by a successful response. -/
def c1Transport : Nat → Response := fun n =>
  if n = 0 then ⟨429, false, "Rate limit exceeded", .vNull⟩
  else ⟨200, true, "", .vObj [("ok", .vBool true)]⟩

/-- Witness for C1 at a concrete verb, path, payload and transport. -/
theorem makeRequest_retry_then_succeed_witness :
    makeRequest "get" "/test" { query := [("key", .vStr "k")] } "https://api.trello.com"
      c1Transport 2 0 =
      (.success (.vObj [("ok", .vBool true)]),
        [buildRequest "get" "/test" { query := [("key", .vStr "k")] } "https://api.trello.com",
          buildRequest "get" "/test" { query := [("key", .vStr "k")] }
            "https://api.trello.com"]) :=
  makeRequest_retry_then_succeed "get" "/test" "https://api.trello.com" _ c1Transport _ 0
    rfl (by decide) (by decide) ⟨fun _ => by decide, fun _ => rfl⟩ rfl

/-- Claim C2: under sustained 429 responses `makeRequest` never terminates
and retries without any ceiling: with any fuel bound the run is still
`pending` and has invoked the transport exactly `fuel` times — so for every
bound `n`, instantiating `fuel := n + 1` exhibits more than `n` transport
invocations. -/
theorem makeRequest_unbounded_retry
    (m uri base : String) (opts : RequestOptions) (transport : Nat → Response)
    (h : ∀ i, (transport i).status = 429) (fuel idx : Nat) :
    (makeRequest m uri opts base transport fuel idx).1 = .pending ∧
      (makeRequest m uri opts base transport fuel idx).2.length = fuel := by
  induction fuel generalizing idx with
  | zero => simp [makeRequest]
  | succ n ih =>
    have hrec := ih (idx + 1)
    simp [makeRequest, h idx, hrec.1, hrec.2]

/-- Transport used to witness C2: every response is a 429. -/
def all429Transport : Nat → Response := fun _ =>
  ⟨429, false, "Rate limit exceeded", .vNull⟩

/-- Witness for C2: five units of fuel are exhausted by five 429s with the
call still pending. -/
theorem makeRequest_unbounded_retry_witness :
    (makeRequest "get" "/test" { query := [] } "https://api.trello.com"
        all429Transport 5 0).1 = .pending ∧
      (makeRequest "get" "/test" { query := [] } "https://api.trello.com"
        all429Transport 5 0).2.length = 5 :=
  makeRequest_unbounded_retry "get" "/test" "https://api.trello.com" _ all429Transport
    (fun _ => rfl) 5 0

/-- Claim C5: a non-429 response with `ok = false` makes `makeRequest` fail
after exactly one transport call, with an error whose message is the
response's body text and which carries the full response object — so the
caller can branch on its `status` field. -/
theorem makeRequest_error_surfacing
    (m uri base : String) (opts : RequestOptions) (transport : Nat → Response) (fuel : Nat)
    (hok : (transport 0).ok = false) (hst : (transport 0).status ≠ 429) :
    makeRequest m uri opts base transport (fuel + 1) 0 =
      (.httpError (transport 0).textBody (transport 0), [buildRequest m uri opts base]) := by
  simp [makeRequest, hok, hst]

/-- Transport used to witness C5: a single 404 response. -/
def notFoundTransport : Nat → Response := fun _ => ⟨404, false, "Not Found", .vNull⟩

/-- Witness for C5: a 404 with body `"Not Found"` surfaces as an error with
that message carrying the response, whose `status` is 404. -/
theorem makeRequest_error_surfacing_witness :
    makeRequest "get" "/test" { query := [] } "https://api.trello.com"
        notFoundTransport 1 0 =
      (.httpError "Not Found" ⟨404, false, "Not Found", .vNull⟩,
        [buildRequest "get" "/test" { query := [] } "https://api.trello.com"]) :=
  makeRequest_error_surfacing "get" "/test" "https://api.trello.com" _ notFoundTransport 0
    rfl (by decide)

/-- Claim C6: a response with `ok = true` (which by the Fetch invariant has a
2xx status, hence is not a 429) makes `makeRequest` resolve, after exactly
one transport call, to precisely the value its JSON body parses to — for
every JSON value `X`, with no transformation applied. -/
theorem makeRequest_success_passthrough
    (m uri base : String) (opts : RequestOptions) (transport : Nat → Response)
    (X : JSValue) (fuel : Nat)
    (hok : (transport 0).ok = true) (hc : fetchConsistent (transport 0))
    (hX : (transport 0).jsonBody = X) :
    makeRequest m uri opts base transport (fuel + 1) 0 =
      (.success X, [buildRequest m uri opts base]) := by
  have hr : 200 ≤ (transport 0).status ∧ (transport 0).status ≤ 299 := hc.mp hok
  have hst : ¬ (transport 0).status = 429 := by omega
  simp [makeRequest, hok, hst, hX]

/-- Transport used to witness C6: a 200 whose body parses to an array holding
the empty object. -/
def successTransport : Nat → Response := fun _ => ⟨200, true, "", .vArr [.vObj []]⟩

/-- Witness for C6 at the concrete body `[ { } ]`. -/
theorem makeRequest_success_passthrough_witness :
    makeRequest "get" "/test" { query := [] } "https://api.trello.com"
        successTransport 1 0 =
      (.success (.vArr [.vObj []]),
        [buildRequest "get" "/test" { query := [] } "https://api.trello.com"]) :=
  makeRequest_success_passthrough "get" "/test" "https://api.trello.com" _ successTransport
    _ 0 rfl ⟨fun _ => by decide, fun _ => rfl⟩ rfl

/-- Claim C3 (evaluation at the claim's inputs): the facade does reject a
non-string `requestMethod` (here `123`) and a non-object `options` (here
`"not-an-object"`) with the expected type errors before any delegation, but
for the unrecognized string method `"patch"` it raises no error at all and
delegates straight to the transport core — there is no "unsupported method"
validation, contradicting the claim and `tests/trello.test.ts`. -/
theorem trelloMakeRequest_patch_reaches_transport :
    (trelloMakeRequest "k" "t" (.vNum 123) "somePath" (.vObj [])).typeError =
        some "requestMethod should be a string" ∧
      (trelloMakeRequest "k" "t" (.vNum 123) "somePath" (.vObj [])).call = none ∧
      (trelloMakeRequest "k" "t" (.vStr "GET") "somePath"
          (.vStr "not-an-object")).typeError = some "options should be an object" ∧
      (trelloMakeRequest "k" "t" (.vStr "GET") "somePath" (.vStr "not-an-object")).call =
        none ∧
      (trelloMakeRequest "k" "t" (.vStr "patch") "somePath" (.vObj [])).typeError = none ∧
      (trelloMakeRequest "k" "t" (.vStr "patch") "somePath" (.vObj [])).call =
        some ⟨"patch", "somePath",
          { query := [("key", .vStr "k"), ("token", .vStr "t")] }, trelloUri⟩ :=
  ⟨rfl, rfl, rfl, rfl, rfl, rfl⟩

/-- Claim C4 (evaluation): for the lower-case method identifiers of the
declared `RequestMethod` type the wire method is the JSON-suffix-stripped,
upper-cased base verb, but the facade-level identifiers `POST_JSON` (the
exact string the facade's JSON branch matches) and `POSTJSON` (used by
`tests/npm-ready.test.ts`) are passed through unchanged: the case-sensitive
`replace(/json$/, '')` does not strip `JSON` and `includes('json')` does not
detect JSON mode, so the wire method is the invalid `POST_JSON`/`POSTJSON`,
not `POST`. -/
theorem wireMethod_case_mismatch :
    wireMethod "postjson" = "POST" ∧ wireMethod "putjson" = "PUT" ∧
      wireMethod "get" = "GET" ∧ wireMethod "post" = "POST" ∧
      wireMethod "put" = "PUT" ∧ wireMethod "delete" = "DELETE" ∧
      isJsonMode "postjson" = true ∧ isJsonMode "putjson" = true ∧
      wireMethod "POST_JSON" = "POST_JSON" ∧ isJsonMode "POST_JSON" = false ∧
      wireMethod "PUT_JSON" = "PUT_JSON" ∧
      wireMethod "POSTJSON" = "POSTJSON" ∧ isJsonMode "POSTJSON" = false ∧
      ((trelloMakeRequest "k" "t" (.vStr "POST_JSON") "/test" (.vObj [])).call.map
          (fun c => (buildRequest c.method c.path c.options c.baseUri).method)) =
        some "POST_JSON" :=
  ⟨rfl, rfl, rfl, rfl, rfl, rfl, rfl, rfl, rfl, rfl, rfl, rfl, rfl, rfl⟩

/-- Claim C7: in form mode every key of the query map is appended as a search
parameter with its value coerced by `String(v)` in insertion order, with no
body; the serialized URL for the query of property P4 is exactly
`key=k&token=t&name=Card+Title` (space encoded as `+`); arrays coerce to
comma-joined strings, objects to the fixed placeholder `[object Object]`,
and `null` to the literal string `null`. -/
theorem formMode_query_serialization
    (m uri base : String) (q : List (String × JSValue)) (h : isJsonMode m = false) :
    (buildRequest m uri { query := q } base).params =
        q.map (fun kv => (kv.1, jsToString kv.2)) ∧
      (buildRequest m uri { query := q } base).body = none ∧
      (buildRequest "get" "/1/cards"
          { query := [("key", .vStr "k"), ("token", .vStr "t"),
              ("name", .vStr "Card Title")] }).urlString =
        "https://api.trello.com/1/cards?key=k&token=t&name=Card+Title" ∧
      serializeParams [("key", "k"), ("token", "t"), ("name", "Card Title")] =
        "key=k&token=t&name=Card+Title" ∧
      jsToString (.vArr [.vNum 1, .vNum 2, .vNum 3]) = "1,2,3" ∧
      jsToString (.vObj [("a", .vNum 1)]) = "[object Object]" ∧
      jsToString .vNull = "null" := by
  refine ⟨?_, ?_, rfl, rfl, rfl, rfl, rfl⟩ <;> simp [buildRequest, h]

/-- Witness for C7 at a concrete form-mode method and query. -/
theorem formMode_query_serialization_witness :
    (buildRequest "get" "/1/boards/" { query := [("name", .vStr "Test Board")] }
          "https://api.trello.com").params = [("name", "Test Board")] ∧
      (buildRequest "get" "/1/boards/" { query := [("name", .vStr "Test Board")] }
          "https://api.trello.com").body = none ∧
      (buildRequest "get" "/1/cards"
          { query := [("key", .vStr "k"), ("token", .vStr "t"),
              ("name", .vStr "Card Title")] }).urlString =
        "https://api.trello.com/1/cards?key=k&token=t&name=Card+Title" ∧
      serializeParams [("key", "k"), ("token", "t"), ("name", "Card Title")] =
        "key=k&token=t&name=Card+Title" ∧
      jsToString (.vArr [.vNum 1, .vNum 2, .vNum 3]) = "1,2,3" ∧
      jsToString (.vObj [("a", .vNum 1)]) = "[object Object]" ∧
      jsToString .vNull = "null" :=
  formMode_query_serialization "get" "/1/boards/" "https://api.trello.com"
    [("name", .vStr "Test Board")] rfl

/-- Claim C8, counterexample to "strictly between 500 ms and 7000 ms": when
`Math.random()` returns 0 — a value it can produce — the computed delay is
exactly `MIN_REQUEST_DELAY = 500`, which is not strictly greater than 500. -/
theorem backoffDelay_not_strictly_above_min :
    backoffDelay 0 = 500 ∧ ¬ (500 < backoffDelay 0) := by
  have h : backoffDelay 0 = 500 := by
    simp [backoffDelay, MIN_REQUEST_DELAY, MAX_REQUEST_DELAY]
  exact ⟨h, by omega⟩

/-- Claim C8 as amended: for every random draw `r` in `[0, 1)` the delay lies
in the half-open interval `[MIN_REQUEST_DELAY, MAX_REQUEST_DELAY)` — at least
500 (with 500 itself attained) and strictly below 7000 — and the preimage of
each integer delay value `k` is the half-open interval
`[(k-500)/6500, (k-499)/6500)` of uniform length `1/6500`, so the delay is
uniformly distributed over the integers 500..6999 when `r` is uniform. -/
theorem backoffDelay_range_uniform (r : ℚ) (hr0 : 0 ≤ r) (hr1 : r < 1) :
    MIN_REQUEST_DELAY ≤ backoffDelay r ∧ backoffDelay r < MAX_REQUEST_DELAY ∧
      ∀ k : Int, (backoffDelay r = k ↔
        ((k : ℚ) - 500) / 6500 ≤ r ∧ r < ((k : ℚ) - 499) / 6500) := by
  have hbd : ∀ s : ℚ, backoffDelay s = ⌊s * 6500⌋ + 500 := by
    intro s
    unfold backoffDelay MIN_REQUEST_DELAY MAX_REQUEST_DELAY
    norm_num
  have h65 : (0 : ℚ) < 6500 := by norm_num
  have hfl0 : (0 : Int) ≤ ⌊r * 6500⌋ := by
    rw [Int.le_floor]
    push_cast
    positivity
  have hfl1 : ⌊r * 6500⌋ < 6500 := by
    rw [Int.floor_lt]
    push_cast
    linarith
  refine ⟨?_, ?_, ?_⟩
  · rw [hbd]
    simp only [MIN_REQUEST_DELAY]
    omega
  · rw [hbd]
    simp only [MAX_REQUEST_DELAY]
    omega
  · intro k
    rw [hbd]
    rw [show (⌊r * 6500⌋ + 500 = k ↔ ⌊r * 6500⌋ = k - 500) from by omega]
    rw [Int.floor_eq_iff]
    push_cast
    constructor
    · rintro ⟨a, b⟩
      constructor
      · rw [div_le_iff₀ h65]
        linarith
      · rw [lt_div_iff₀ h65]
        linarith
    · rintro ⟨a, b⟩
      rw [div_le_iff₀ h65] at a
      rw [lt_div_iff₀ h65] at b
      constructor
      · linarith
      · linarith

/-- Witness for the amended C8 at the concrete draw `r = 1/2`: the delay is
3750, within the half-open contract window. -/
theorem backoffDelay_range_uniform_witness :
    (MIN_REQUEST_DELAY ≤ backoffDelay (1 / 2) ∧ backoffDelay (1 / 2) < MAX_REQUEST_DELAY) ∧
      backoffDelay (1 / 2) = 3750 :=
  ⟨⟨(backoffDelay_range_uniform (1 / 2) (by norm_num) (by norm_num)).1,
    (backoffDelay_range_uniform (1 / 2) (by norm_num) (by norm_num)).2.1⟩,
    ((backoffDelay_range_uniform (1 / 2) (by norm_num) (by norm_num)).2.2 3750).mpr
      ⟨by norm_num, by norm_num⟩⟩

/-- Claim C9, counterexample: `data` present but falsy — here the defined
JSON value `false` — produces a request with no body at all, although
`JSON.stringify(false) = "false"`; the source guards the body with the
truthiness test `if (jsonOptions.data)`, not with presence. -/
theorem jsonMode_falsy_data_counterexample :
    (buildRequest "postjson" "/test"
        { query := [("key", .vStr "k")],
          headers := some [("Content-Type", "application/json")],
          data := some (.vBool false) } "https://api.trello.com").body = none ∧
      jsonStringify (.vBool false) = "false" ∧
      (buildRequest "postjson" "/test"
          { query := [("key", .vStr "k")],
            headers := some [("Content-Type", "application/json")],
            data := some (.vBool false) } "https://api.trello.com").body ≠
        some (jsonStringify (.vBool false)) :=
  ⟨rfl, rfl, fun h => Option.noConfusion h⟩

/-- Claim C9 as amended: in JSON mode (method containing lower-case `json`)
with `data` present and truthy, the request body is `JSON.stringify(data)`
and the caller-supplied headers — `Content-Type: application/json` in the
facade's usage — are attached, while the query map is still appended to the
URL as stringified search parameters; with `data` present but falsy no body
is attached; and form-mode requests never carry a body. -/
theorem jsonMode_body_headers (m uri base : String) (q : List (String × JSValue))
    (hs : List (String × String)) (d : JSValue)
    (hm : isJsonMode m = true) (hd : truthy d = true) :
    (buildRequest m uri { query := q, headers := some hs, data := some d } base).body =
        some (jsonStringify d) ∧
      (buildRequest m uri { query := q, headers := some hs, data := some d } base).headers =
        some hs ∧
      (buildRequest m uri { query := q, headers := some hs, data := some d } base).params =
        q.map (fun kv => (kv.1, jsToString kv.2)) ∧
      (∀ d' : JSValue, truthy d' = false →
        (buildRequest m uri { query := q, headers := some hs, data := some d' } base).body =
          none) ∧
      (∀ m' : String, ∀ q' : List (String × JSValue), isJsonMode m' = false →
        (buildRequest m' uri { query := q' } base).body = none) := by
  refine ⟨?_, ?_, ?_, ?_, ?_⟩
  · simp [buildRequest, hm, hd]
  · simp [buildRequest, hm]
  · simp [buildRequest, hm]
  · intro d' hd'
    simp [buildRequest, hm, hd']
  · intro m' q' hm'
    simp [buildRequest, hm']

/-- Witness for the amended C9 at the method `postjson` with data `(a : 1)`. -/
theorem jsonMode_body_headers_witness :
    (buildRequest "postjson" "/test"
        { query := [("key", .vStr "k"), ("token", .vStr "t")],
          headers := some [("Content-Type", "application/json")],
          data := some (.vObj [("a", .vNum 1)]) } "https://api.trello.com").body =
        some (jsonStringify (.vObj [("a", .vNum 1)])) ∧
      (buildRequest "postjson" "/test"
          { query := [("key", .vStr "k"), ("token", .vStr "t")],
            headers := some [("Content-Type", "application/json")],
            data := some (.vObj [("a", .vNum 1)]) } "https://api.trello.com").headers =
        some [("Content-Type", "application/json")] ∧
      (buildRequest "postjson" "/test"
          { query := [("key", .vStr "k"), ("token", .vStr "t")],
            headers := some [("Content-Type", "application/json")],
            data := some (.vObj [("a", .vNum 1)]) } "https://api.trello.com").params =
        [("key", "k"), ("token", "t")] :=
  ⟨(jsonMode_body_headers "postjson" "/test" "https://api.trello.com"
      [("key", .vStr "k"), ("token", .vStr "t")] [("Content-Type", "application/json")]
      (.vObj [("a", .vNum 1)]) rfl rfl).1,
    (jsonMode_body_headers "postjson" "/test" "https://api.trello.com"
      [("key", .vStr "k"), ("token", .vStr "t")] [("Content-Type", "application/json")]
      (.vObj [("a", .vNum 1)]) rfl rfl).2.1,
    (jsonMode_body_headers "postjson" "/test" "https://api.trello.com"
      [("key", .vStr "k"), ("token", .vStr "t")] [("Content-Type", "application/json")]
      (.vObj [("a", .vNum 1)]) rfl rfl).2.2.1⟩

/-- Overwriting every entry keyed `k'` leaves `find?` for a different key
`k` unchanged. -/
theorem find?_map_overwrite (l : List (String × JSValue)) (k k' : String) (v : JSValue)
    (h : (k' == k) = false) :
    (l.map (fun kv => if kv.1 == k' then (k', v) else kv)).find? (fun kv => kv.1 == k) =
      l.find? (fun kv => kv.1 == k) := by
  induction l with
  | nil => rfl
  | cons hd tl ih =>
    simp only [List.map_cons]
    by_cases hh : (hd.1 == k') = true
    · have he : hd.1 = k' := eq_of_beq hh
      have h1 : (hd.1 == k) = false := by rw [he]; exact h
      rw [if_pos hh]
      rw [List.find?_cons_of_neg _ (by simp [h]), List.find?_cons_of_neg _ (by simp [h1])]
      exact ih
    · rw [if_neg hh]
      by_cases hk : (hd.1 == k) = true
      · rw [@List.find?_cons_of_pos _ (fun kv : String × JSValue => kv.1 == k) hd _ hk,
          @List.find?_cons_of_pos _ (fun kv : String × JSValue => kv.1 == k) hd _ hk]
      · rw [@List.find?_cons_of_neg _ (fun kv : String × JSValue => kv.1 == k) hd _ hk,
          @List.find?_cons_of_neg _ (fun kv : String × JSValue => kv.1 == k) hd _ hk]
        exact ih

/-- Appending an entry keyed `k'` leaves `find?` for a different key `k`
unchanged. -/
theorem find?_append_singleton_ne (l : List (String × JSValue)) (k k' : String) (v : JSValue)
    (h : (k' == k) = false) :
    (l ++ [(k', v)]).find? (fun kv => kv.1 == k) = l.find? (fun kv => kv.1 == k) := by
  induction l with
  | nil => simp [List.find?_cons, h]
  | cons hd tl ih => cases hk : (hd.1 == k) <;> simp [List.find?_cons, hk, ih]

/-- JS property assignment under a different key does not change a lookup. -/
theorem lookupKey_setKey_ne (l : List (String × JSValue)) (k k' : String) (v : JSValue)
    (h : (k' == k) = false) :
    lookupKey (setKey l k' v) k = lookupKey l k := by
  unfold lookupKey setKey
  split
  · rw [find?_map_overwrite _ _ _ _ h]
  · rw [find?_append_singleton_ne _ _ _ _ h]

/-- Spreading entries whose keys all differ from `k` over an object does not
change the lookup of `k`. -/
theorem lookupKey_mergeSpread_ne (b : List (String × JSValue))
    (fs : List (String × JSValue)) (k : String)
    (h : ∀ kv ∈ b, (kv.1 == k) = false) :
    lookupKey (mergeSpread fs b) k = lookupKey fs k := by
  induction b generalizing fs with
  | nil => rfl
  | cons hd tl ih =>
    show lookupKey (mergeSpread (setKey fs hd.1 hd.2) tl) k = lookupKey fs k
    exact (ih (setKey fs hd.1 hd.2)
        (fun kv hkv => h kv (List.mem_cons_of_mem _ hkv))).trans
      (lookupKey_setKey_ne _ _ _ _ (h hd (List.mem_cons_self _ _)))

/-- A successful lookup exhibits the entry itself. -/
theorem lookupKey_mem (l : List (String × JSValue)) (k : String) (v : JSValue)
    (h : lookupKey l k = some v) : (k, v) ∈ l := by
  unfold lookupKey at h
  cases hf : l.find? (fun kv => kv.1 == k) with
  | none => rw [hf] at h; simp at h
  | some kv =>
    rw [hf] at h
    have h1 := List.find?_some hf
    have h2 : kv ∈ l := List.mem_of_find?_eq_some hf
    have h3 : kv.2 = v := by simpa using h
    have h4 : kv = (k, v) := Prod.ext (eq_of_beq h1) h3
    rwa [h4] at h2

/-- Keys of the injected key/token pair differ from `"data"`. -/
theorem keyToken_ne_data (key token : String) :
    ∀ kv ∈ [(("key" : String), JSValue.vStr key), (("token" : String), JSValue.vStr token)],
      (kv.1 == "data") = false := by
  intro kv hkv
  rcases List.mem_cons.mp hkv with rfl | h
  · rfl
  · rcases List.mem_cons.mp h with rfl | h
    · rfl
    · simp at h

/-- Claim C10: for `POST_JSON`/`PUT_JSON` the facade raises no error, mutates
the caller's options object by deleting its `data` property, and delegates a
call whose `data` field holds the pre-deletion value while the merged query
map — built from the spread of `options` before the deletion — still contains
the `data` entry, which therefore also reaches the URL as a stringified
search parameter of the built request; for every other method string the
caller's options object is left unchanged. -/
theorem trelloMakeRequest_json_mutates_options
    (key token path : String) (fs : List (String × JSValue)) (v : JSValue) (m : String)
    (hm : m = "POST_JSON" ∨ m = "PUT_JSON")
    (hv : lookupKey fs "data" = some v) :
    (trelloMakeRequest key token (.vStr m) path (.vObj fs)).typeError = none ∧
      (trelloMakeRequest key token (.vStr m) path (.vObj fs)).finalOptions =
        .vObj (deleteKey fs "data") ∧
      (∃ c, (trelloMakeRequest key token (.vStr m) path (.vObj fs)).call = some c ∧
        c.options.data = some v ∧
        lookupKey c.options.query "data" = some v ∧
        ("data", jsToString v) ∈ (buildRequest c.method c.path c.options c.baseUri).params) ∧
      ∀ m' : String, m' ≠ "POST_JSON" → m' ≠ "PUT_JSON" →
        (trelloMakeRequest key token (.vStr m') path (.vObj fs)).finalOptions =
          .vObj fs := by
  have hq : lookupKey (mergeSpread fs
      [("key", JSValue.vStr key), ("token", JSValue.vStr token)]) "data" = some v :=
    (lookupKey_mergeSpread_ne _ fs "data" (keyToken_ne_data key token)).trans hv
  have hmem : (("data" : String), v) ∈ mergeSpread fs
      [("key", JSValue.vStr key), ("token", JSValue.vStr token)] :=
    lookupKey_mem _ _ _ hq
  have hlast : ∀ m' : String, m' ≠ "POST_JSON" → m' ≠ "PUT_JSON" →
      (trelloMakeRequest key token (.vStr m') path (.vObj fs)).finalOptions =
        .vObj fs := by
    intro m' h1 h2
    simp [trelloMakeRequest, jsTypeof, strVal, h1, h2]
  rcases hm with rfl | rfl
  · refine ⟨rfl, rfl, ⟨_, rfl, hv, hq, ?_⟩, hlast⟩
    exact List.mem_map_of_mem _ hmem
  · refine ⟨rfl, rfl, ⟨_, rfl, hv, hq, ?_⟩, hlast⟩
    exact List.mem_map_of_mem _ hmem

/-- Witness for C10 at a concrete options object holding a `data` entry. -/
theorem trelloMakeRequest_json_mutates_options_witness :
    (trelloMakeRequest "k" "t" (.vStr "POST_JSON") "/p"
        (.vObj [("data", .vStr "x"), ("other", .vNum 1)])).typeError = none ∧
      (trelloMakeRequest "k" "t" (.vStr "POST_JSON") "/p"
          (.vObj [("data", .vStr "x"), ("other", .vNum 1)])).finalOptions =
        .vObj (deleteKey [("data", .vStr "x"), ("other", .vNum 1)] "data") ∧
      (∃ c, (trelloMakeRequest "k" "t" (.vStr "POST_JSON") "/p"
          (.vObj [("data", .vStr "x"), ("other", .vNum 1)])).call = some c ∧
        c.options.data = some (.vStr "x") ∧
        lookupKey c.options.query "data" = some (.vStr "x") ∧
        ("data", jsToString (.vStr "x")) ∈
          (buildRequest c.method c.path c.options c.baseUri).params) ∧
      ∀ m' : String, m' ≠ "POST_JSON" → m' ≠ "PUT_JSON" →
        (trelloMakeRequest "k" "t" (.vStr m') "/p"
            (.vObj [("data", .vStr "x"), ("other", .vNum 1)])).finalOptions =
          .vObj [("data", .vStr "x"), ("other", .vNum 1)] :=
  trelloMakeRequest_json_mutates_options "k" "t" "/p"
    [("data", .vStr "x"), ("other", .vNum 1)] (.vStr "x") "POST_JSON" (Or.inl rfl) rfl

end TrelloSpec
